import Mathlib

/-!
Verification of the decay-computation and unit-conversion core of the
UERJ radioactive-decay calculator (src/app.py).

The Python floats are embedded as real numbers; `np.exp` and `np.log`
become `Real.exp` and `Real.log`.  The isotope dictionary held in
`st.session_state.isotopes` is embedded as an insertion-ordered
association list with unique keys, and the dictionary operations used by
the manager page (`d[k] = v`, `del d[k]`) as `setKey` and `delKey`.
-/

namespace DecayApp

/-- AVOGADRO_NUMBER from app.py line 82. -/
noncomputable def AVOGADRO_NUMBER : ℝ := 6.02214076e23

/-- The CONVERSIONS_TO_YEARS dictionary (app.py lines 94-100), embedded
as a partial map from unit name to factor: `none` models a key that is
absent from the dictionary. -/
noncomputable def conversionFactor (unit : String) : Option ℝ :=
  if unit = "segundos" then some (1 / (365.25 * 24 * 60 * 60))
  else if unit = "minutos" then some (1 / (365.25 * 24 * 60))
  else if unit = "horas" then some (1 / (365.25 * 24))
  else if unit = "dias" then some (1 / 365.25)
  else if unit = "anos" then some 1.0
  else none

/-- convert_time_to_years (app.py lines 123-124):
`value * CONVERSIONS_TO_YEARS.get(unit, 1)` — an unrecognized unit falls
back to the default factor 1 supplied to `dict.get`. -/
noncomputable def convert_time_to_years (value : ℝ) (unit : String) : ℝ :=
  value * (conversionFactor unit).getD 1

/-- Spec-mandated variant of the time conversion, written from the words
of the spec: "Fails with InvalidArgumentError on unrecognized unit".
Declared only to exhibit the divergence from `convert_time_to_years`;
every other definition in this file is taken from the source. -/
noncomputable def toYears_specMandated (value : ℝ) (unit : String) : Option ℝ :=
  (conversionFactor unit).map (fun f => value * f)

/-- calculate_simple_decay (app.py lines 126-127):
`N0 * np.exp(-lam * t_years)`. -/
noncomputable def calculate_simple_decay (N0 lam t_years : ℝ) : ℝ :=
  N0 * Real.exp (-lam * t_years)

/-- mass_to_nuclei (app.py lines 129-131), with the defensive clamp
returning 0 when the atomic weight is not positive. -/
noncomputable def mass_to_nuclei (mass_g atomic_weight : ℝ) : ℝ :=
  if atomic_weight ≤ 0 then 0
  else (mass_g / atomic_weight) * AVOGADRO_NUMBER

/-- nuclei_to_mass (app.py lines 133-134). -/
noncomputable def nuclei_to_mass (nuclei atomic_weight : ℝ) : ℝ :=
  (nuclei / AVOGADRO_NUMBER) * atomic_weight

/-- One record of the isotope dictionary: the fields stored by
render_manager (app.py lines 421-423) and by DEFAULT_ISOTOPES. -/
structure Isotope where
  lam : ℝ
  half_life : ℝ
  unit : String
  atomic_weight : ℝ

/-- st.session_state.isotopes: a Python dict, embedded as an
insertion-ordered association list whose keys are unique. -/
def Catalog : Type := List (String × Isotope)

/-- Python dict assignment `d[k] = v`: replaces the value at an existing
key in place, otherwise appends the binding at the end. -/
def setKey (k : String) (v : Isotope) : Catalog → Catalog
  | [] => [(k, v)]
  | p :: rest => if p.1 = k then (k, v) :: rest else p :: setKey k v rest

/-- Python dict deletion `del d[k]`: removes the binding of `k`
(the first one; keys of a dict are unique). -/
def delKey (k : String) : Catalog → Catalog
  | [] => []
  | p :: rest => if p.1 = k then rest else p :: delKey k rest

/-- Error taxonomy of the spec (section 7). -/
inductive DomErr where
  | invalidArgument
  | notFound
  | precondition
deriving DecidableEq

/-- The add path of render_manager (app.py lines 417-426): with an empty
name the form does nothing; otherwise it converts the half-life to
years, sets `lam = np.log(2)/hl_years if hl_years > 0 else 0`, and
stores the record under the name (overwriting silently). -/
noncomputable def addIso (name : String) (atomic_weight hl : ℝ) (unit : String)
    (c : Catalog) : Catalog :=
  if name = "" then c
  else
    let hl_years := convert_time_to_years hl unit
    let lam := if hl_years > 0 then Real.log 2 / hl_years else 0
    setKey name ⟨lam, hl, unit, atomic_weight⟩ c

/-- The remove path of render_manager (app.py lines 430-438): the entry
is deleted only when more than one entry is present; otherwise the page
reports "Mínimo 1 isótopo necessário." and the catalog is left
untouched — embedded as the spec's PreconditionError. -/
def removeIso (name : String) (c : Catalog) : Except DomErr Catalog :=
  if 1 < c.length then Except.ok (delKey name c)
  else Except.error DomErr.precondition

/-- np.linspace(a, b, num) with endpoint=True (the call in app.py
line 243): num evenly spaced points from a to b inclusive. -/
noncomputable def linspace (a b : ℝ) (num : ℕ) : List ℝ :=
  (List.range num).map (fun i : ℕ => a + (b - a) * (i : ℝ) / ((num - 1 : ℕ) : ℝ))

/-- max_t from app.py line 241: `t_val if t_val > 0 else 100`. -/
noncomputable def effectiveMaxT (t_val : ℝ) : ℝ :=
  if t_val > 0 then t_val else 100

/-- The time series built by run_simple_mode (app.py lines 241-245):
`t_plot = np.linspace(0, max_t, steps + 1)` paired with the decay law
evaluated at each time converted to years. -/
noncomputable def run_simple_series (N0 lam t_val : ℝ) (t_unit : String)
    (steps : ℕ) : List (ℝ × ℝ) :=
  let max_t := effectiveMaxT t_val
  let t_plot := linspace 0 max_t (steps + 1)
  t_plot.map (fun t => (t, calculate_simple_decay N0 lam (convert_time_to_years t t_unit)))

/-- The Césio-137 record of DEFAULT_ISOTOPES (app.py line 85). -/
noncomputable def cesio137 : Isotope := ⟨0.02298, 30.17, "anos", 136.907⟩

/-- A catalog holding exactly one entry. -/
noncomputable def singletonCatalog : Catalog := [("Césio-137", cesio137)]

/-- A two-entry catalog used as a concrete witness input. -/
noncomputable def twoCatalog : Catalog :=
  [("A", ⟨1, 1, "anos", 1⟩), ("B", ⟨2, 2, "dias", 2⟩)]

/- ------------------------------------------------------------------ -/
/- Helper lemmas (shared; none of them is a claim theorem).           -/
/- ------------------------------------------------------------------ -/

/-- Looking up the key just written by `setKey` yields the new value. -/
theorem lookup_setKey_self (k : String) (v : Isotope) (c : Catalog) :
    List.lookup k (setKey k v c) = some v := by
  induction c with
  | nil => simp [setKey, List.lookup]
  | cons p rest ih =>
    by_cases h : p.1 = k
    · simp [setKey, h, List.lookup]
    · simp only [setKey, h, if_false]
      rw [List.lookup_cons]
      have : (k == p.1) = false := by
        simp [beq_iff_eq]
        exact fun hk => h hk.symm
      simp [this, ih]

/-- A key absent from the key list never resolves in a lookup. -/
theorem lookup_eq_none_of_not_mem (k : String) (c : Catalog)
    (h : k ∉ c.map Prod.fst) : List.lookup k c = none := by
  induction c with
  | nil => rfl
  | cons p rest ih =>
    simp only [List.map_cons, List.mem_cons] at h
    push_neg at h
    rw [List.lookup_cons]
    have : (k == p.1) = false := by simp [beq_iff_eq, h.1]
    simp [this, ih h.2]

/-- `delKey` shortens the list by one exactly when the key is bound. -/
theorem length_delKey_of_mem (k : String) (c : Catalog)
    (h : k ∈ c.map Prod.fst) : (delKey k c).length + 1 = c.length := by
  induction c with
  | nil => simp at h
  | cons p rest ih =>
    by_cases hp : p.1 = k
    · simp [delKey, hp]
    · simp only [List.map_cons, List.mem_cons] at h
      rcases h with h | h
      · exact absurd h.symm hp
      · simp [delKey, hp, ih h]

/-- After `delKey k`, the key `k` no longer resolves (given unique keys). -/
theorem lookup_delKey_self (k : String) (c : Catalog)
    (hnd : (c.map Prod.fst).Nodup) : List.lookup k (delKey k c) = none := by
  induction c with
  | nil => rfl
  | cons p rest ih =>
    simp only [List.map_cons, List.nodup_cons] at hnd
    by_cases hp : p.1 = k
    · simp only [delKey, hp, if_true]
      exact lookup_eq_none_of_not_mem k rest (hp ▸ hnd.1)
    · simp only [delKey, hp, if_false]
      rw [List.lookup_cons]
      have : (k == p.1) = false := by
        simp [beq_iff_eq]
        exact fun hk => hp hk.symm
      simp [this, ih hnd.2]

/-- `delKey k` leaves the binding of every other key untouched. -/
theorem lookup_delKey_ne (k name : String) (c : Catalog) (h : k ≠ name) :
    List.lookup k (delKey name c) = List.lookup k c := by
  induction c with
  | nil => rfl
  | cons p rest ih =>
    by_cases hp : p.1 = name
    · simp only [delKey, hp, if_true]
      rw [List.lookup_cons]
      have : (k == p.1) = false := by simp [beq_iff_eq, hp, h]
      simp [this]
    · simp only [delKey, hp, if_false]
      rw [List.lookup_cons, List.lookup_cons]
      by_cases hk : k = p.1
      · simp [hk]
      · have : (k == p.1) = false := by simp [beq_iff_eq, hk]
        simp [this, ih]

/-- conversionFactor maps the unit "anos" to the factor 1. -/
theorem conversionFactor_anos : conversionFactor "anos" = some 1 := by
  unfold conversionFactor
  rw [if_neg (by decide), if_neg (by decide), if_neg (by decide),
    if_neg (by decide), if_pos rfl]
  norm_num

/-- Converting a value given in years is the identity. -/
theorem convert_anos (v : ℝ) : convert_time_to_years v "anos" = v := by
  rw [convert_time_to_years, conversionFactor_anos]
  norm_num

/-- `delKey` removes at most one binding. -/
theorem length_delKey_ge (k : String) (c : Catalog) :
    c.length ≤ (delKey k c).length + 1 := by
  induction c with
  | nil => simp [delKey]
  | cons p rest ih =>
    by_cases hp : p.1 = k
    · simp [delKey, hp]
    · simp only [delKey, hp, if_false, List.length_cons]
      omega

/-- The time column of the series is the arithmetic progression
`i * (effectiveMaxT t_val / steps)` for `i = 0 .. steps`. -/
theorem run_simple_series_times (N0 lam t_val : ℝ) (u : String) (steps : ℕ) :
    (run_simple_series N0 lam t_val u steps).map Prod.fst
      = (List.range (steps + 1)).map
          (fun i : ℕ => effectiveMaxT t_val / (steps : ℝ) * (i : ℝ)) := by
  unfold run_simple_series linspace
  rw [List.map_map, List.map_map]
  apply List.map_congr_left
  intro i _
  simp only [Function.comp, Nat.add_sub_cancel]
  ring

/- ------------------------------------------------------------------ -/
/- Claim theorems.                                                    -/
/- ------------------------------------------------------------------ -/

/-- C1: the claim says an unrecognized unit makes the conversion fail
with InvalidArgumentError, but app.py line 124 uses
`CONVERSIONS_TO_YEARS.get(unit, 1)`: for the unrecognized unit
"semanas" the code returns `5 * 1 = 5` instead of failing, while the
spec-mandated conversion has no entry for it. -/
theorem convert_unknown_unit_returns_result :
    convert_time_to_years 5 "semanas" = 5 ∧
      toYears_specMandated 5 "semanas" = none := by
  have hsf : conversionFactor "semanas" = none := by
    unfold conversionFactor
    rw [if_neg (by decide), if_neg (by decide), if_neg (by decide),
      if_neg (by decide), if_neg (by decide)]
  constructor
  · rw [convert_time_to_years, hsf]
    norm_num
  · rw [toYears_specMandated, hsf]
    rfl

/-- C4: the decay law is monotonically non-increasing in time for
nonnegative decay constant and nonnegative initial quantity. -/
theorem decay_monotone_nonincreasing (N0 lam t1 t2 : ℝ)
    (hlam : 0 ≤ lam) (hN0 : 0 ≤ N0) (_ht1 : 0 ≤ t1) (ht : t1 < t2) :
    calculate_simple_decay N0 lam t2 ≤ calculate_simple_decay N0 lam t1 := by
  unfold calculate_simple_decay
  have h1 : -lam * t2 ≤ -lam * t1 := by nlinarith
  exact mul_le_mul_of_nonneg_left (Real.exp_le_exp.mpr h1) hN0

/-- Witness for C4 at N0 = 1, lam = 1, t1 = 0, t2 = 1. -/
theorem decay_monotone_nonincreasing_w :
    (0 : ℝ) ≤ 1 ∧ (0 : ℝ) ≤ 1 ∧ (0 : ℝ) ≤ 0 ∧ (0 : ℝ) < 1 ∧
      calculate_simple_decay 1 1 1 ≤ calculate_simple_decay 1 1 0 :=
  ⟨by norm_num, by norm_num, le_refl 0, by norm_num,
    decay_monotone_nonincreasing 1 1 0 1 (by norm_num) (by norm_num)
      (le_refl 0) (by norm_num)⟩

/-- C9: evaluating the decay law at time zero returns the initial
quantity exactly. -/
theorem decay_at_zero (N0 lam : ℝ) :
    calculate_simple_decay N0 lam 0 = N0 := by
  simp [calculate_simple_decay]

/-- C6: mass-to-count conversion round-trips exactly over the reals for
positive atomic weight. -/
theorem mass_nuclei_roundtrip (m w : ℝ) (_hm : 0 ≤ m) (hw : 0 < w) :
    nuclei_to_mass (mass_to_nuclei m w) w = m := by
  unfold mass_to_nuclei nuclei_to_mass
  rw [if_neg (not_le.mpr hw)]
  have hA : AVOGADRO_NUMBER ≠ 0 := by norm_num [AVOGADRO_NUMBER]
  have hw0 : w ≠ 0 := ne_of_gt hw
  field_simp
  ring

/-- Witness for C6 at m = 1, w = 2. -/
theorem mass_nuclei_roundtrip_w :
    (0 : ℝ) ≤ 1 ∧ (0 : ℝ) < 2 ∧ nuclei_to_mass (mass_to_nuclei 1 2) 2 = 1 :=
  ⟨by norm_num, by norm_num,
    mass_nuclei_roundtrip 1 2 (by norm_num) (by norm_num)⟩

/-- C2 counterexample: the claim says add with halfLifeValue = 0 fails
with InvalidArgumentError and creates no entry, but the add path of
render_manager creates the entry "X" with lambda 0 (app.py line 420
guards the division and falls back to 0): the catalog is changed. -/
theorem add_zero_halflife_creates_entry :
    List.lookup "X" (addIso "X" 10 0 "anos" singletonCatalog)
      = some ⟨0, 0, "anos", 10⟩ ∧
    List.lookup "X" singletonCatalog = none := by
  constructor
  · have h0 : ¬ (convert_time_to_years 0 "anos" > 0) := by
      rw [convert_anos]
      exact lt_irrefl 0
    simp only [addIso, if_neg (show ¬ ("X" = "") by decide), if_neg h0]
    exact lookup_setKey_self "X" ⟨0, 0, "anos", 10⟩ singletonCatalog
  · have hne : ("X" == "Césio-137") = false := by decide
    simp [singletonCatalog, List.lookup_cons, hne]

/-- C2 amended: when the converted half-life is not positive (and the
name is nonempty, else the form does nothing), add does NOT fail: it
stores — possibly overwriting — an entry whose decayConstant is 0, so
the catalog is changed rather than left untouched. -/
theorem add_nonpositive_halflife_stores_lambda_zero (name : String)
    (w hl : ℝ) (u : String) (c : Catalog) (hname : name ≠ "")
    (h : convert_time_to_years hl u ≤ 0) :
    List.lookup name (addIso name w hl u c) = some ⟨0, hl, u, w⟩ := by
  have h0 : ¬ (convert_time_to_years hl u > 0) := not_lt.mpr h
  simp only [addIso, if_neg hname, if_neg h0]
  exact lookup_setKey_self name ⟨0, hl, u, w⟩ c

/-- Witness for the amended C2 at name "X", half-life -1 years. -/
theorem add_nonpositive_halflife_stores_lambda_zero_w :
    ("X" : String) ≠ "" ∧ convert_time_to_years (-1) "anos" ≤ 0 ∧
      List.lookup "X" (addIso "X" 10 (-1) "anos" singletonCatalog)
        = some ⟨0, -1, "anos", 10⟩ :=
  ⟨by decide, by rw [convert_anos]; norm_num,
    add_nonpositive_halflife_stores_lambda_zero "X" 10 (-1) "anos"
      singletonCatalog (by decide) (by rw [convert_anos]; norm_num)⟩

/-- C3: removing from a one-entry catalog fails with the precondition
error (the code only mutates when more than one entry is present, so
the catalog is untouched), and any successful remove still leaves at
least one entry: the catalog never becomes empty. -/
theorem remove_singleton_min_entry (name : String) (c : Catalog) :
    (c.length = 1 → removeIso name c = Except.error DomErr.precondition) ∧
    (∀ c2, removeIso name c = Except.ok c2 → 0 < c2.length) := by
  constructor
  · intro h
    have hn : ¬ 1 < c.length := by omega
    rw [removeIso, if_neg hn]
  · intro c2 hc2
    unfold removeIso at hc2
    by_cases h : 1 < c.length
    · rw [if_pos h] at hc2
      injection hc2 with hc2
      subst hc2
      have := length_delKey_ge name c
      omega
    · rw [if_neg h] at hc2
      simp at hc2

/-- Witness for C3 on the one-entry catalog. -/
theorem remove_singleton_min_entry_w :
    singletonCatalog.length = 1 ∧
      removeIso "Césio-137" singletonCatalog
        = Except.error DomErr.precondition :=
  ⟨rfl, (remove_singleton_min_entry "Césio-137" singletonCatalog).1 rfl⟩

/-- C5: the series contains exactly steps + 1 points, its first time is
0, and its time column is the arithmetic progression of constant step
effectiveMaxT t_val / steps, i.e. the points are evenly spaced. -/
theorem series_shape (N0 lam t_val : ℝ) (u : String) (steps : ℕ) :
    (run_simple_series N0 lam t_val u steps).length = steps + 1 ∧
    ((run_simple_series N0 lam t_val u steps).map Prod.fst).head? = some 0 ∧
    (run_simple_series N0 lam t_val u steps).map Prod.fst
      = (List.range (steps + 1)).map
          (fun i : ℕ => effectiveMaxT t_val / (steps : ℝ) * (i : ℝ)) := by
  refine ⟨?_, ?_, run_simple_series_times N0 lam t_val u steps⟩
  · have h := congrArg List.length (run_simple_series_times N0 lam t_val u steps)
    rw [List.length_map, List.length_map, List.length_range] at h
    exact h
  · rw [run_simple_series_times, List.range_succ_eq_map]
    simp

/-- C7: with a non-positive caller-supplied span the series is built
over the default span 100: it equals the series for t_val = 100, all
its times lie in [0, 100], and (for at least one step) 100 itself is
among the times. -/
theorem series_default_span (N0 lam t_val : ℝ) (u : String) (steps : ℕ)
    (h : t_val ≤ 0) :
    run_simple_series N0 lam t_val u steps
      = run_simple_series N0 lam 100 u steps ∧
    (∀ t ∈ (run_simple_series N0 lam t_val u steps).map Prod.fst,
      0 ≤ t ∧ t ≤ 100) ∧
    (1 ≤ steps →
      (100 : ℝ) ∈ (run_simple_series N0 lam t_val u steps).map Prod.fst) := by
  have heff : effectiveMaxT t_val = 100 := by
    rw [effectiveMaxT, if_neg (not_lt.mpr h)]
  have heff100 : effectiveMaxT 100 = 100 := by
    rw [effectiveMaxT, if_pos (by norm_num)]
  refine ⟨?_, ?_, ?_⟩
  · unfold run_simple_series
    rw [heff, heff100]
  · intro t ht
    rw [run_simple_series_times, heff] at ht
    rcases List.mem_map.mp ht with ⟨i, hi, he⟩
    rw [List.mem_range, Nat.lt_succ_iff] at hi
    subst he
    constructor
    · exact mul_nonneg (div_nonneg (by norm_num) (Nat.cast_nonneg steps))
        (Nat.cast_nonneg i)
    · rcases Nat.eq_zero_or_pos steps with hs | hs
      · subst hs
        have hi0 : i = 0 := by omega
        subst hi0
        norm_num
      · have hi2 : (i : ℝ) ≤ (steps : ℝ) := by exact_mod_cast hi
        have hsp : (0 : ℝ) < steps := by exact_mod_cast hs
        calc (100 : ℝ) / steps * i ≤ 100 / steps * steps := by
              apply mul_le_mul_of_nonneg_left hi2
              positivity
          _ = 100 := div_mul_cancel₀ 100 (ne_of_gt hsp)
  · intro hs
    rw [run_simple_series_times, heff]
    apply List.mem_map.mpr
    refine ⟨steps, List.mem_range.mpr (Nat.lt_succ_self steps), ?_⟩
    have hsp : ((steps : ℕ) : ℝ) ≠ 0 := by
      have h1 : (0 : ℝ) < steps := by exact_mod_cast hs
      exact ne_of_gt h1
    field_simp

/-- Witness for C7 at t_val = -1, steps = 1. -/
theorem series_default_span_w :
    (-1 : ℝ) ≤ 0 ∧
      run_simple_series 1 0 (-1) "anos" 1
        = run_simple_series 1 0 100 "anos" 1 :=
  ⟨by norm_num, (series_default_span 1 0 (-1) "anos" 1 (by norm_num)).1⟩

/-- C8: an isotope created through add with a positive converted
half-life is stored with decayConstant = ln 2 divided by the half-life
converted to years. -/
theorem add_stores_log2_div_halflife_years (name : String) (w hl : ℝ)
    (u : String) (c : Catalog) (hname : name ≠ "")
    (h : 0 < convert_time_to_years hl u) :
    List.lookup name (addIso name w hl u c)
      = some ⟨Real.log 2 / convert_time_to_years hl u, hl, u, w⟩ := by
  simp only [addIso, if_neg hname, if_pos h]
  exact lookup_setKey_self name _ c

/-- Witness for C8 at name "X", half-life 1 year. -/
theorem add_stores_log2_div_halflife_years_w :
    ("X" : String) ≠ "" ∧ 0 < convert_time_to_years 1 "anos" ∧
      List.lookup "X" (addIso "X" 10 1 "anos" singletonCatalog)
        = some ⟨Real.log 2 / convert_time_to_years 1 "anos", 1, "anos", 10⟩ :=
  ⟨by decide, by rw [convert_anos]; norm_num,
    add_stores_log2_div_halflife_years "X" 10 1 "anos" singletonCatalog
      (by decide) (by rw [convert_anos]; norm_num)⟩

/-- C10: on a catalog with more than one entry whose keys are unique
and contain the name, remove succeeds, deletes exactly that entry (the
length drops by one and the name no longer resolves), and every other
key still resolves to exactly its old record. -/
theorem remove_preserves_other_entries (c : Catalog) (name : String)
    (hnd : (c.map Prod.fst).Nodup) (hlen : 1 < c.length)
    (hmem : name ∈ c.map Prod.fst) :
    removeIso name c = Except.ok (delKey name c) ∧
    (delKey name c).length + 1 = c.length ∧
    List.lookup name (delKey name c) = none ∧
    ∀ k, k ≠ name → List.lookup k (delKey name c) = List.lookup k c := by
  refine ⟨?_, length_delKey_of_mem name c hmem,
    lookup_delKey_self name c hnd, fun k hk => lookup_delKey_ne k name c hk⟩
  rw [removeIso, if_pos hlen]

/-- Witness for C10 on the two-entry catalog, removing "A". -/
theorem remove_preserves_other_entries_w :
    removeIso "A" twoCatalog = Except.ok (delKey "A" twoCatalog) ∧
      List.lookup "A" (delKey "A" twoCatalog) = none ∧
      List.lookup "B" (delKey "A" twoCatalog)
        = List.lookup "B" twoCatalog := by
  have h := remove_preserves_other_entries twoCatalog "A"
    (by decide) (by decide) (by decide)
  exact ⟨h.1, h.2.2.1, h.2.2.2 "B" (by decide)⟩

end DecayApp
